import Mathlib

/-!
# Verification of the `python_can_viewer` core

Shallow embedding of the core logic of the `python_can_viewer` repository
(`python_can_viewer/python_can_viewer.py`): the CANopen frame classifier
`parse_canopen_message`, the payload codec `pack_data` / `unpack_data`, and
the row sort key of `draw_can_bus_message`.

Modelling conventions:
* Python ints are `Int`/`Nat`; Python floats are idealised as exact rationals
  (`ℚ`); byte strings are `List Nat` with each entry `< 256`.
* Python exceptions (`IndexError`, `ValueError`, `struct.error`,
  `ZeroDivisionError`) are represented by `Except String`.
* The IEEE-754 byte encoding of the `f`/`d` struct codes is outside the
  embedding; `encodeField`/`decodeField` signal a modelling error on those
  codes and no theorem below depends on a float field's byte encoding.
-/

deriving instance DecidableEq for Except

namespace PyCanViewer

/-- A received CAN frame, as used by `parse_canopen_message` and
`draw_can_bus_message` (the timestamp plays no role in the embedded logic). -/
structure Msg where
  arbitration_id : Nat
  is_extended_id : Bool
  dlc : Nat
  data : List Nat
deriving DecidableEq, Repr

/-- Mask for extracting the CANopen function code, `0x780`. -/
def CANOPEN_FUNCTION_CODE_MASK : Nat := 0x780

/-- Mask for extracting the CANopen node id, `0x07F`. -/
def CANOPEN_NODE_ID_MASK : Nat := 0x07F

/-- A value of the `canopen_function_codes` dict: either a dict from exact
message length to function name, or a bare function name string. -/
inductive CanopenEntry
  | byLength (m : List (Nat × String))
  | anyLength (s : String)
deriving DecidableEq, Repr

open CanopenEntry in
/-- The `canopen_function_codes` dict, in source (insertion) order. -/
def canopen_function_codes : List (Nat × CanopenEntry) := [
  (0x000, byLength [(2, "NMT")]),
  (0x080, byLength [(0, "SYNC"), (8, "EMCY")]),
  (0x100, byLength [(6, "TIME")]),
  (0x180, anyLength "TPDO1"),
  (0x200, anyLength "RPDO1"),
  (0x280, anyLength "TPDO2"),
  (0x300, anyLength "RPDO2"),
  (0x380, anyLength "TPDO3"),
  (0x400, anyLength "RPDO3"),
  (0x480, anyLength "TPDO4"),
  (0x500, anyLength "RPDO4"),
  (0x580, byLength [(8, "SDO_TX")]),
  (0x600, byLength [(8, "SDO_RX")]),
  (0x700, byLength [(1, "HEARTBEAT")]),
  (0x7E4, byLength [(8, "LSS_TX")]),
  (0x7E5, byLength [(8, "LSS_RX")])]

/-- Dict lookup `canopen_function_codes[k]` (also decides `k in` the dict). -/
def tableLookup (k : Nat) : Option CanopenEntry :=
  canopen_function_codes.lookup k

/-- Python `msg.dlc in entry` / `entry[msg.dlc]` for a length-keyed entry;
`none` when `entry` is a bare string (never consulted that way in the source). -/
def lenLookup : CanopenEntry → Nat → Option String
  | .byLength m, d => lenListLookup m d
  | .anyLength _, _ => none
where
  lenListLookup : List (Nat × String) → Nat → Option String
    | [], _ => none
    | (l, s) :: rest, d => if d = l then some s else lenListLookup rest d

/-- Python truthiness of an optional string (`if canopen_function_code_string:`):
`None` and the empty string are falsy. -/
def pyTruthy : Option String → Bool
  | none => false
  | some s => s ≠ ""

/-- One hexadecimal digit, uppercase, as in Python's `'X'` format code. -/
def hexDigitChar (n : Nat) : Char :=
  if n < 10 then Char.ofNat (48 + n) else Char.ofNat (55 + n)

/-- Uppercase hexadecimal digits of `n`, most significant first (Python's
`'X'` format code). -/
def natHexChars (n : Nat) : List Char :=
  (Nat.toDigits 16 n).map Char.toUpper

/-- Zero-pad a digit list to width two, as Python's `'02X'` format spec. -/
def padTwo (cs : List Char) : List Char :=
  if cs.length < 2 then '0' :: cs else cs

/-- Python `'0x{0:02X}'.format n`: `"0x"` followed by the uppercase hex
digits of `n`, zero-padded to at least two digits. -/
def format02X (n : Nat) : String :=
  "0x" ++ String.mk (padTwo (natHexChars n))

/-- The value held by the variable `canopen_function_code_string` after the
first phase of `parse_canopen_message` (source lines 224-245), for a frame of
payload length `dlc`, function code `fc`, node id `nodeId` and table entry
`entry = canopen_function_codes[fc]`. -/
def canopen_function_code_string (dlc fc nodeId : Nat) (entry : CanopenEntry) : Option String :=
  if fc = 0x080 then
    -- SYNC/EMCY: check the length, then the length/node-id combination
    match lenLookup entry dlc with
    | some s =>
      if (dlc = 0 ∧ nodeId = 0) ∨ (dlc = 8 ∧ 1 ≤ nodeId ∧ nodeId ≤ 127) then some s
      else none
    | none => none
  else if (fc = 0x000 ∨ fc = 0x100) ∧ (nodeId ≠ 0 ∨ (lenLookup entry dlc).isNone) then
    -- not a CANopen message: the node id is not added to these commands
    none
  else
    match entry with
    | .byLength _ =>
      -- make sure the message has the defined length
      lenLookup entry dlc
    | .anyLength s =>
      -- these ids have no fixed length; the node id must be valid
      if 1 ≤ nodeId ∧ nodeId ≤ 127 then some s else none

/-- The second phase of `parse_canopen_message` (source lines 247-260):
derive `canopen_node_id_string`, possibly resetting the function string on an
invalid NMT target byte; the `msg.data[1]` read can raise `IndexError`. -/
def canopen_node_id_step (data : List Nat) (fc nodeId : Nat) (fstr : Option String) :
    Except String (Option String × Option String) :=
  if pyTruthy fstr then
    if 1 ≤ nodeId ∧ nodeId ≤ 127 then .ok (fstr, some (format02X nodeId))
    else if fc = 0x000 then
      -- NMT carries the target node id in the second data byte
      match data[1]? with
      | none => .error "IndexError"
      | some b =>
        if b = 0 then .ok (fstr, some "ALL")
        else if 1 ≤ b ∧ b ≤ 127 then .ok (fstr, some (format02X b))
        else .ok (none, none)  -- invalid target byte: reset the function string
    else .ok (fstr, none)
  else .ok (fstr, none)

/-- Translation of `CanViewer.parse_canopen_message`, branch by branch from
the source.  A Python `IndexError` (the `msg.data[1]` read) is `.error`; the
normal return is `.ok (canopen_function_code_string, canopen_node_id_string)`. -/
def parse_canopen_message (msg : Msg) : Except String (Option String × Option String) :=
  if msg.is_extended_id then .ok (none, none)
  else
    let fc := msg.arbitration_id &&& CANOPEN_FUNCTION_CODE_MASK
    match tableLookup fc with
    | some entry =>
      let nodeId := msg.arbitration_id &&& CANOPEN_NODE_ID_MASK
      canopen_node_id_step msg.data fc nodeId
        (canopen_function_code_string msg.dlc fc nodeId entry)
    | none =>
      -- the two fixed LSS ids
      if msg.arbitration_id = 0x7E4 ∨ msg.arbitration_id = 0x7E5 then
        match tableLookup msg.arbitration_id with
        | some entry =>
          match lenLookup entry msg.dlc with
          | some s => .ok (some s, none)
          | none => .ok (none, none)
        | none => .ok (none, none)
      else .ok (none, none)

/-! ## Payload codec (`pack_data` / `unpack_data`)

Python numbers are modelled by `PyVal`: an `int` is an `Int`, a `float` is
idealised as an exact rational (IEEE-754 rounding of arithmetic is outside
the embedding).  A `struct.Struct` is a byte order plus the expanded list of
field codes of its format string (repeat counts such as `2H` are expanded).
-/

/-- A dynamically typed Python number: `int` or `float` (idealised as `ℚ`). -/
inductive PyVal
  | int (i : Int)
  | float (q : ℚ)
deriving DecidableEq, Repr

/-- Python multiplication `arg * val` on numbers: `int * int` is `int`, any
`float` operand makes the result `float`. -/
def pyMul : PyVal → PyVal → PyVal
  | .int a, .int b => .int (a * b)
  | .int a, .float q => .float (a * q)
  | .float q, .int b => .float (q * b)
  | .float a, .float b => .float (a * b)

/-- Round half to even, the semantics of Python's builtin `round` on a
non-integer number. -/
def roundHalfEven (q : ℚ) : Int :=
  let f := ⌊q⌋
  let r := q - f
  if r < 1/2 then f
  else if 1/2 < r then f + 1
  else if f % 2 = 0 then f else f + 1

/-- Python `round(x)`: an `int` is returned unchanged, a `float` is rounded
half to even to an `int`. -/
def pyRound : PyVal → PyVal
  | .int i => .int i
  | .float q => .int (roundHalfEven q)

/-- Byte order of a struct format string, its mandatory first character
(`<` little-endian or `>` big-endian; the source asserts one is present). -/
inductive ByteOrder
  | little
  | big
deriving DecidableEq, Repr

/-- A non-padding field code of a struct format string:
`b/B/h/H/l/L/q/Q` integer codes and the `f`/`d` float codes. -/
inductive FieldCode
  | i8 | u8 | i16 | u16 | i32 | u32 | i64 | u64 | f32 | f64
deriving DecidableEq, Repr

/-- Byte width of a field code. -/
def FieldCode.size : FieldCode → Nat
  | .i8 => 1 | .u8 => 1
  | .i16 => 2 | .u16 => 2
  | .i32 => 4 | .u32 => 4
  | .i64 => 8 | .u64 => 8
  | .f32 => 4 | .f64 => 8

/-- Whether the code is a signed integer code. -/
def FieldCode.isSigned : FieldCode → Bool
  | .i8 | .i16 | .i32 | .i64 => true
  | _ => false

/-- The representable range of an integer field code (`struct.pack` raises
`struct.error` outside it); `none` for the float codes. -/
def FieldCode.range? (c : FieldCode) : Option (Int × Int) :=
  match c with
  | .f32 | .f64 => none
  | _ =>
    if c.isSigned then some (-(2 ^ (8 * c.size - 1)), 2 ^ (8 * c.size - 1) - 1)
    else some (0, 2 ^ (8 * c.size) - 1)

/-- Little-endian base-256 digits of `n`, exactly `w` bytes. -/
def natToBytesLE : Nat → Nat → List Nat
  | 0, _ => []
  | w + 1, n => (n % 256) :: natToBytesLE w (n / 256)

/-- Value of a little-endian base-256 digit list. -/
def natFromBytesLE : List Nat → Nat
  | [] => 0
  | b :: bs => b + 256 * natFromBytesLE bs

/-- Present a little-endian byte list in the given byte order. -/
def withByteOrder : ByteOrder → List Nat → List Nat
  | .little, l => l
  | .big, l => l.reverse

/-- Encoding of one field by `struct.pack`: an integer within the code's
range is written as `size` bytes of its two's complement, in the struct's
byte order; a `float` argument to an integer code raises `struct.error`, as
does an out-of-range integer.  The IEEE-754 encoding of the `f`/`d` codes is
not modelled; no theorem below depends on it. -/
def encodeField (bo : ByteOrder) (c : FieldCode) (v : PyVal) : Except String (List Nat) :=
  match c.range? with
  | none => .error "float byte encoding not modelled"
  | some r =>
    match v with
    | .float _ => .error "struct.error: required argument is not an integer"
    | .int i =>
      if r.1 ≤ i ∧ i ≤ r.2 then
        .ok (withByteOrder bo (natToBytesLE c.size (i % 2 ^ (8 * c.size)).toNat))
      else .error "struct.error: argument out of range"

/-- Decoding of one field by `struct.unpack` from its `size` bytes: the
base-256 value, sign-adjusted for the signed codes (two's complement). -/
def decodeField (bo : ByteOrder) (c : FieldCode) (bytes : List Nat) : Except String PyVal :=
  match c.range? with
  | none => .error "float byte decoding not modelled"
  | some _ =>
    let n := natFromBytesLE (withByteOrder bo bytes)
    if c.isSigned ∧ 2 ^ (8 * c.size - 1) ≤ n then
      .ok (.int ((n : Int) - 2 ^ (8 * c.size)))
    else .ok (.int (n : Int))

/-- Body of `struct.Struct.pack`: encode the arguments field by field and
concatenate; an argument-count mismatch raises `struct.error`. -/
def structPackFields (bo : ByteOrder) : List FieldCode → List PyVal → Except String (List Nat)
  | [], [] => .ok []
  | c :: cs, v :: vs => do
    let b ← encodeField bo c v
    let rest ← structPackFields bo cs vs
    .ok (b ++ rest)
  | _, _ => .error "struct.error: wrong number of arguments"

/-- Body of `struct.Struct.unpack`: split the buffer by the field widths and
decode each field; a leftover or missing byte raises `struct.error`. -/
def structUnpackFields (bo : ByteOrder) : List FieldCode → List Nat → Except String (List PyVal)
  | [], [] => .ok []
  | [], _ :: _ => .error "struct.error: unpack requires a buffer of the struct size"
  | c :: cs, data =>
    if (data.take c.size).length = c.size then do
      let v ← decodeField bo c (data.take c.size)
      let rest ← structUnpackFields bo cs (data.drop c.size)
      .ok (v :: rest)
    else .error "struct.error: unpack requires a buffer of the struct size"

/-- A `struct.Struct`: byte order and expanded field-code list. -/
structure StructFmt where
  byteOrder : ByteOrder
  fields : List FieldCode
deriving DecidableEq, Repr

/-- The call `struct_t.pack(*data)`. -/
def structPack (struct_t : StructFmt) (vals : List PyVal) : Except String (List Nat) :=
  structPackFields struct_t.byteOrder struct_t.fields vals

/-- The call `struct_t.unpack(data)`. -/
def structUnpack (struct_t : StructFmt) (data : List Nat) : Except String (List PyVal) :=
  structUnpackFields struct_t.byteOrder struct_t.fields data

/-- A key of the `data_structs` dict: a single id or a tuple of ids sharing
one layout. -/
inductive TableKey
  | one (n : Nat)
  | many (ns : List Nat)
deriving DecidableEq, Repr

/-- The source's key test `cmd == key if isinstance(key, int) else cmd in key`. -/
def TableKey.keyMatches (k : TableKey) (cmd : Nat) : Bool :=
  match k with
  | .one n => cmd == n
  | .many ns => ns.contains cmd

/-- A value of the `data_structs` dict: a bare `struct.Struct`, or a tuple
of a `struct.Struct` followed by one scaling factor per field. -/
inductive TableValue
  | plain (struct_t : StructFmt)
  | scaled (struct_t : StructFmt) (scaling : List PyVal)
deriving DecidableEq, Repr

/-- The lookup loop shared by `pack_data` and `unpack_data`: first entry (in
insertion order) whose key equals, or whose key tuple contains, `cmd`. -/
def findStructEntry (cmd : Nat) : List (TableKey × TableValue) → Option TableValue
  | [] => none
  | (k, v) :: rest => if k.keyMatches cmd then some v else findStructEntry cmd rest

/-- Python `'Unknown command: 0x{:02X}'.format cmd`, the `ValueError`
message raised by `pack_data` and `unpack_data`. -/
def unknownCommandMsg (cmd : Nat) : String :=
  "Unknown command: 0x" ++ String.mk (padTwo (natHexChars cmd))

/-- The data list built by `pack_data` for a tuple entry:
`zip(fmt[1:], args, value[1:])` with `arg * val` kept unrounded exactly when
the format character is `f`, and `round(arg * val)` otherwise (the zip
truncates at the shortest list). -/
def buildPackData : List FieldCode → List PyVal → List PyVal → List PyVal
  | c :: cs, a :: args, v :: vals =>
    (if c = .f32 then pyMul a v else pyRound (pyMul a v)) :: buildPackData cs args vals
  | _, _, _ => []

/-- Translation of `CanViewer.pack_data`.  With an empty table or no
arguments it returns `b''` without consulting the table; otherwise the first
matching entry is packed (scaling first for tuple entries), and a `ValueError`
is raised when no key matches. -/
def pack_data (cmd : Nat) (cmd_to_struct : List (TableKey × TableValue))
    (args : List PyVal) : Except String (List Nat) :=
  if cmd_to_struct.isEmpty ∨ args.length = 0 then .ok []
  else
    match findStructEntry cmd cmd_to_struct with
    | some (.scaled struct_t scaling) => structPack struct_t (buildPackData struct_t.fields args scaling)
    | some (.plain struct_t) => structPack struct_t args
    | none => .error (unknownCommandMsg cmd)

/-- Python `d // val` for a raw value `d` and an `int` scaling factor:
floor division, `ZeroDivisionError` on a zero factor; on a `float` raw value
the result is the floored quotient as a `float`. -/
def pyFloorDiv (d : PyVal) (s : Int) : Except String PyVal :=
  if s = 0 then .error "ZeroDivisionError"
  else match d with
    | .int i => .ok (.int (Int.fdiv i s))
    | .float q => .ok (.float ((⌊q / (s : ℚ)⌋ : Int) : ℚ))

/-- Python `float(d)`: exact conversion in the rational idealisation. -/
def pyToFloat : PyVal → ℚ
  | .int i => (i : ℚ)
  | .float q => q

/-- Scaling of one unpacked value, the body of the comprehension
`d // val if isinstance(val, int) else float(d) / val`. -/
def scaleOne (d v : PyVal) : Except String PyVal :=
  match v with
  | .int s => pyFloorDiv d s
  | .float q =>
    if q = 0 then .error "ZeroDivisionError"
    else .ok (.float (pyToFloat d / q))

/-- The whole comprehension: scale each raw value by its factor, truncating
at the shorter list as `zip` does. -/
def scaleValues : List PyVal → List PyVal → Except String (List PyVal)
  | d :: ds, v :: vs => do
    let x ← scaleOne d v
    let rest ← scaleValues ds vs
    .ok (x :: rest)
  | _, _ => .ok []

/-- Translation of `CanViewer.unpack_data`.  With an empty table or empty
data it returns `[]` without consulting the table; otherwise the first
matching entry is unpacked (then scaled for tuple entries), and a
`ValueError` is raised when no key matches. -/
def unpack_data (cmd : Nat) (cmd_to_struct : List (TableKey × TableValue))
    (data : List Nat) : Except String (List PyVal) :=
  if cmd_to_struct.isEmpty ∨ data.length = 0 then .ok []
  else
    match findStructEntry cmd cmd_to_struct with
    | some (.scaled struct_t scaling) => do
      let raw ← structUnpack struct_t data
      scaleValues raw scaling
    | some (.plain struct_t) => structUnpack struct_t data
    | none => .error (unknownCommandMsg cmd)

/-- The row sort key of `draw_can_bus_message`: the arbitration id, with bit
32 set for extended-id frames so they sort after all standard ids. -/
def sortKey (msg : Msg) : Nat :=
  if msg.is_extended_id then msg.arbitration_id ||| (1 <<< 32)
  else msg.arbitration_id

/-- Specification predicate: each value is an integer within the
representable range of its integer field code (pointwise, equal lengths). -/
def intsInRange : List FieldCode → List Int → Bool
  | [], [] => true
  | c :: cs, v :: vs =>
    (match c.range? with
      | some r => decide (r.1 ≤ v) && decide (v ≤ r.2)
      | none => false) && intsInRange cs vs
  | _, _ => false

/-- Specification predicate for the scaled round trip: pointwise, the scaling
factor is a nonzero integer and the scaled raw value `v * s` is within the
representable range of its integer field code (equal lengths). -/
def checkScaledRanges : List FieldCode → List Int → List Int → Bool
  | [], [], [] => true
  | c :: cs, v :: vs, s :: ss =>
    (s != 0) &&
    (match c.range? with
      | some r => decide (r.1 ≤ v * s) && decide (v * s ≤ r.2)
      | none => false) &&
    checkScaledRanges cs vs ss
  | _, _, _ => false

/-! ## Theorems -/

/-- C3: for a standard frame on the NMT base id `0x000` with node id 0 and
payload length 2, payload `[2,1]` classifies as `("NMT", "0x01")`, payload
`[1,0]` as `("NMT", "ALL")`, and a second payload byte above 127 (payload
`[2,128]`) invalidates the whole classification, returning no label at all. -/
theorem nmt_payload_byte_classification (a : Nat)
    (hfc : a &&& CANOPEN_FUNCTION_CODE_MASK = 0x000)
    (hnode : a &&& CANOPEN_NODE_ID_MASK = 0) :
    parse_canopen_message ⟨a, false, 2, [2, 1]⟩ = .ok (some "NMT", some "0x01") ∧
    parse_canopen_message ⟨a, false, 2, [1, 0]⟩ = .ok (some "NMT", some "ALL") ∧
    parse_canopen_message ⟨a, false, 2, [2, 128]⟩ = .ok (none, none) := by
  have ht : tableLookup 0x000 = some (CanopenEntry.byLength [(2, "NMT")]) := by decide
  refine ⟨?_, ?_, ?_⟩ <;>
    · simp only [parse_canopen_message, hfc, hnode, ht]
      decide

/-- Witness for C3 at arbitration id `0x000`. -/
theorem nmt_payload_byte_classification_witness :
    parse_canopen_message ⟨0, false, 2, [2, 1]⟩ = .ok (some "NMT", some "0x01") ∧
    parse_canopen_message ⟨0, false, 2, [1, 0]⟩ = .ok (some "NMT", some "ALL") ∧
    parse_canopen_message ⟨0, false, 2, [2, 128]⟩ = .ok (none, none) :=
  nmt_payload_byte_classification 0 (by decide) (by decide)

/-- C4: a standard frame with arbitration id exactly `0x7E4` (resp. `0x7E5`)
gets the function label `LSS_TX` (resp. `LSS_RX`) exactly when the payload
length is the declared fixed length 8, and no label otherwise. -/
theorem lss_fixed_id_classification (msg : Msg)
    (hext : msg.is_extended_id = false) :
    (msg.arbitration_id = 0x7E4 →
      parse_canopen_message msg = .ok ((if msg.dlc = 8 then some "LSS_TX" else none), none)) ∧
    (msg.arbitration_id = 0x7E5 →
      parse_canopen_message msg = .ok ((if msg.dlc = 8 then some "LSS_RX" else none), none)) := by
  have ht4 : tableLookup (0x7E4 &&& CANOPEN_FUNCTION_CODE_MASK) = none := by decide
  have ht5 : tableLookup (0x7E5 &&& CANOPEN_FUNCTION_CODE_MASK) = none := by decide
  have hl4 : tableLookup 0x7E4 = some (CanopenEntry.byLength [(8, "LSS_TX")]) := by decide
  have hl5 : tableLookup 0x7E5 = some (CanopenEntry.byLength [(8, "LSS_RX")]) := by decide
  constructor <;>
    · intro h
      by_cases hd : msg.dlc = 8 <;>
        simp [parse_canopen_message, hext, h, hd, ht4, ht5, hl4, hl5,
          lenLookup, lenLookup.lenListLookup]

/-- Witness for C4 at id `0x7E4`, dlc 8. -/
theorem lss_fixed_id_classification_witness :
    parse_canopen_message ⟨0x7E4, false, 8, [0, 0, 0, 0, 0, 0, 0, 0]⟩ =
      .ok ((if (8 : Nat) = 8 then some "LSS_TX" else none), none) :=
  (lss_fixed_id_classification ⟨0x7E4, false, 8, [0, 0, 0, 0, 0, 0, 0, 0]⟩ rfl).1 rfl

/-- Helper: Python-truthy optional strings are `some`. -/
theorem pyTruthy_isSome (o : Option String) (h : pyTruthy o = true) : o.isSome = true := by
  cases o
  · simp [pyTruthy] at h
  · rfl

/-- C1: for a standard-id frame whose arbitration id masked with `0x780` is
`0x080`, the function label is `SYNC` iff `dlc = 0` and the node id is 0,
`EMCY` iff `dlc = 8` and the node id is in `1..127`, and absent for every
other combination. -/
theorem sync_emcy_classification (msg : Msg) (r : Option String × Option String)
    (hext : msg.is_extended_id = false)
    (hfc : msg.arbitration_id &&& CANOPEN_FUNCTION_CODE_MASK = 0x080)
    (hok : parse_canopen_message msg = .ok r) :
    (r.1 = some "SYNC" ↔ msg.dlc = 0 ∧ msg.arbitration_id &&& CANOPEN_NODE_ID_MASK = 0) ∧
    (r.1 = some "EMCY" ↔ msg.dlc = 8 ∧ 1 ≤ msg.arbitration_id &&& CANOPEN_NODE_ID_MASK ∧
      msg.arbitration_id &&& CANOPEN_NODE_ID_MASK ≤ 127) ∧
    (¬(msg.dlc = 0 ∧ msg.arbitration_id &&& CANOPEN_NODE_ID_MASK = 0) ∧
      ¬(msg.dlc = 8 ∧ 1 ≤ msg.arbitration_id &&& CANOPEN_NODE_ID_MASK ∧
        msg.arbitration_id &&& CANOPEN_NODE_ID_MASK ≤ 127) → r.1 = none) := by
  have ht : tableLookup 0x080 = some (CanopenEntry.byLength [(0, "SYNC"), (8, "EMCY")]) := by
    decide
  have h127 : msg.arbitration_id &&& CANOPEN_NODE_ID_MASK ≤ 127 := by
    simpa [CANOPEN_NODE_ID_MASK] using
      Nat.and_le_right (n := msg.arbitration_id) (m := 0x07F)
  by_cases hd0 : msg.dlc = 0
  · by_cases hn0 : msg.arbitration_id &&& CANOPEN_NODE_ID_MASK = 0
    · -- SYNC
      have hp : parse_canopen_message msg = .ok (some "SYNC", none) := by
        simp [parse_canopen_message, canopen_function_code_string, canopen_node_id_step,
          hext, hfc, ht, hd0, hn0, lenLookup, lenLookup.lenListLookup, pyTruthy]
      rw [hp] at hok
      injection hok with h
      subst h
      simp [hd0, hn0]
    · -- dlc 0, node nonzero: no label
      have hp : parse_canopen_message msg = .ok (none, none) := by
        simp [parse_canopen_message, canopen_function_code_string, canopen_node_id_step,
          hext, hfc, ht, hd0, hn0, lenLookup, lenLookup.lenListLookup, pyTruthy]
      rw [hp] at hok
      injection hok with h
      subst h
      simp [hd0, hn0]
  · by_cases hd8 : msg.dlc = 8
    · by_cases hn0 : msg.arbitration_id &&& CANOPEN_NODE_ID_MASK = 0
      · -- dlc 8, node 0: no label
        have hp : parse_canopen_message msg = .ok (none, none) := by
          simp [parse_canopen_message, canopen_function_code_string, canopen_node_id_step,
            hext, hfc, ht, hd0, hd8, hn0, lenLookup, lenLookup.lenListLookup, pyTruthy]
        rw [hp] at hok
        injection hok with h
        subst h
        simp [hd0, hd8, hn0]
      · -- EMCY
        have h1 : 1 ≤ msg.arbitration_id &&& CANOPEN_NODE_ID_MASK :=
          Nat.one_le_iff_ne_zero.mpr hn0
        have hp : parse_canopen_message msg =
            .ok (some "EMCY", some (format02X (msg.arbitration_id &&& CANOPEN_NODE_ID_MASK))) := by
          simp [parse_canopen_message, canopen_function_code_string, canopen_node_id_step,
            hext, hfc, ht, hd0, hd8, h1, h127, lenLookup, lenLookup.lenListLookup, pyTruthy]
        rw [hp] at hok
        injection hok with h
        subst h
        simp [hd0, hd8, h1, h127]
    · -- dlc neither 0 nor 8: no label
      have hp : parse_canopen_message msg = .ok (none, none) := by
        simp [parse_canopen_message, canopen_function_code_string, canopen_node_id_step,
          hext, hfc, ht, hd0, hd8, lenLookup, lenLookup.lenListLookup, pyTruthy]
      rw [hp] at hok
      injection hok with h
      subst h
      simp [hd0, hd8]

/-- Witness for C1 at id `0x085`, dlc 8 (an `EMCY` frame with node id 5). -/
theorem sync_emcy_classification_witness :
    ((some "EMCY" : Option String) = some "SYNC" ↔
      (8 : Nat) = 0 ∧ 0x085 &&& CANOPEN_NODE_ID_MASK = 0) ∧
    ((some "EMCY" : Option String) = some "EMCY" ↔
      (8 : Nat) = 8 ∧ 1 ≤ 0x085 &&& CANOPEN_NODE_ID_MASK ∧
        0x085 &&& CANOPEN_NODE_ID_MASK ≤ 127) ∧
    (¬((8 : Nat) = 0 ∧ 0x085 &&& CANOPEN_NODE_ID_MASK = 0) ∧
      ¬((8 : Nat) = 8 ∧ 1 ≤ 0x085 &&& CANOPEN_NODE_ID_MASK ∧
        0x085 &&& CANOPEN_NODE_ID_MASK ≤ 127) → (some "EMCY" : Option String) = none) :=
  sync_emcy_classification ⟨0x085, false, 8, [0, 0, 0, 0, 0, 0, 0, 0]⟩
    (some "EMCY", some "0x05") rfl (by decide) (by decide)

/-- Helper: the node-id step succeeds unless it is the NMT branch with a
truthy function string and a too-short data list. -/
theorem canopen_node_id_step_isOk (data : List Nat) (fc nodeId : Nat) (fstr : Option String)
    (h : fc = 0x000 → pyTruthy fstr = true → 1 < data.length) :
    (canopen_node_id_step data fc nodeId fstr).isOk = true := by
  unfold canopen_node_id_step
  by_cases htr : pyTruthy fstr = true
  · rw [if_pos htr]
    by_cases hval : 1 ≤ nodeId ∧ nodeId ≤ 127
    · rw [if_pos hval]; rfl
    · rw [if_neg hval]
      by_cases hfc : fc = 0x000
      · rw [if_pos hfc]
        have hlt := h hfc htr
        obtain ⟨b, hb⟩ : ∃ b, data[1]? = some b := ⟨_, List.getElem?_eq_getElem hlt⟩
        simp only [hb]
        by_cases hb0 : b = 0
        · rw [if_pos hb0]; rfl
        · rw [if_neg hb0]
          by_cases hbr : 1 ≤ b ∧ b ≤ 127
          · rw [if_pos hbr]; rfl
          · rw [if_neg hbr]; rfl
      · rw [if_neg hfc]; rfl
  · rw [if_neg htr]; rfl

/-- Helper: a truthy NMT function string forces payload length 2. -/
theorem nmt_truthy_dlc (dlc nodeId : Nat)
    (h : pyTruthy (canopen_function_code_string dlc 0x000 nodeId
      (CanopenEntry.byLength [(2, "NMT")])) = true) :
    dlc = 2 := by
  by_cases hd : dlc = 2
  · exact hd
  · exfalso
    simp [canopen_function_code_string, lenLookup, lenLookup.lenListLookup, hd, pyTruthy] at h

/-- C9: the classifier is total — on every frame whose payload byte list has
exactly `dlc` entries (`dlc ≤ 8`), `parse_canopen_message` returns a result
and never raises; in particular the `msg.data[1]` read in the NMT branch is
always in bounds. -/
theorem classifier_total (msg : Msg) (hlen : msg.data.length = msg.dlc)
    (hdlc8 : msg.dlc ≤ 8) :
    (parse_canopen_message msg).isOk = true := by
  by_cases hext : msg.is_extended_id = true
  · simp only [parse_canopen_message, hext, if_true]
    rfl
  · rcases hlk : tableLookup (msg.arbitration_id &&& CANOPEN_FUNCTION_CODE_MASK) with _ | entry
    · simp only [parse_canopen_message, hext, Bool.false_eq_true, if_false, hlk]
      split
      · split
        · split <;> rfl
        · rfl
      · rfl
    · simp only [parse_canopen_message, hext, Bool.false_eq_true, if_false, hlk]
      apply canopen_node_id_step_isOk
      intro hfc htr
      rw [hfc] at hlk
      have hct : tableLookup 0x000 = some (CanopenEntry.byLength [(2, "NMT")]) := by decide
      rw [hct] at hlk
      injection hlk with hentry
      rw [hfc, ← hentry] at htr
      have hd2 := nmt_truthy_dlc msg.dlc (msg.arbitration_id &&& CANOPEN_NODE_ID_MASK) htr
      omega

/-- Witness for C9 at an NMT frame (the branch that reads `msg.data[1]`). -/
theorem classifier_total_witness :
    (parse_canopen_message ⟨0, false, 2, [2, 1]⟩).isOk = true :=
  classifier_total ⟨0, false, 2, [2, 1]⟩ rfl (by decide)

/-- Helper: the node-id step only attaches a node label when the function
string is kept: either the node label is absent, or the returned function
string is the truthy input string. -/
theorem canopen_node_id_step_shape (data : List Nat) (fc nodeId : Nat)
    (fstr f n : Option String)
    (hok : canopen_node_id_step data fc nodeId fstr = .ok (f, n)) :
    n = none ∨ (f = fstr ∧ pyTruthy fstr = true) := by
  unfold canopen_node_id_step at hok
  by_cases htr : pyTruthy fstr = true
  · rw [if_pos htr] at hok
    by_cases hval : 1 ≤ nodeId ∧ nodeId ≤ 127
    · rw [if_pos hval] at hok
      injection hok with hpair
      cases hpair
      exact Or.inr ⟨rfl, htr⟩
    · rw [if_neg hval] at hok
      by_cases hfc : fc = 0x000
      · rw [if_pos hfc] at hok
        rcases hb : data[1]? with _ | b <;> simp only [hb] at hok
        · exact absurd hok (by simp)
        · by_cases hb0 : b = 0
          · rw [if_pos hb0] at hok
            injection hok with hpair
            cases hpair
            exact Or.inr ⟨rfl, htr⟩
          · rw [if_neg hb0] at hok
            by_cases hbr : 1 ≤ b ∧ b ≤ 127
            · rw [if_pos hbr] at hok
              injection hok with hpair
              cases hpair
              exact Or.inr ⟨rfl, htr⟩
            · rw [if_neg hbr] at hok
              injection hok with hpair
              cases hpair
              exact Or.inl rfl
      · rw [if_neg hfc] at hok
        injection hok with hpair
        cases hpair
        exact Or.inl rfl
  · rw [if_neg htr] at hok
    injection hok with hpair
    cases hpair
    exact Or.inl rfl

/-- C10: the classifier result satisfies the invariant that a node-id label
is only ever present together with a function-code label — `(none, some _)`
is unreachable. -/
theorem node_label_needs_function_label (msg : Msg) (f n : Option String)
    (hok : parse_canopen_message msg = .ok (f, n)) (hn : n.isSome = true) :
    f.isSome = true := by
  by_cases hext : msg.is_extended_id = true
  · simp only [parse_canopen_message, hext, if_true] at hok
    injection hok with hpair
    cases hpair
    simp at hn
  · rcases hlk : tableLookup (msg.arbitration_id &&& CANOPEN_FUNCTION_CODE_MASK) with _ | entry
    · simp only [parse_canopen_message, hext, Bool.false_eq_true, if_false, hlk] at hok
      split at hok
      · split at hok
        · split at hok <;>
            · injection hok with hpair
              cases hpair
              simp at hn
        · injection hok with hpair
          cases hpair
          simp at hn
      · injection hok with hpair
        cases hpair
        simp at hn
    · simp only [parse_canopen_message, hext, Bool.false_eq_true, if_false, hlk] at hok
      rcases canopen_node_id_step_shape _ _ _ _ _ _ hok with hno | ⟨hf, htr⟩
      · rw [hno] at hn
        simp at hn
      · rw [hf]
        exact pyTruthy_isSome _ htr

/-- Witness for C10 at an `SDO_TX` frame carrying a node label. -/
theorem node_label_needs_function_label_witness :
    (some "SDO_TX" : Option String).isSome = true :=
  node_label_needs_function_label ⟨0x590, false, 8, [0, 0, 0, 0, 0, 0, 0, 0]⟩
    (some "SDO_TX") (some "0x10") (by decide) rfl

/-- Helper: setting bit 32 dominates the OR. -/
theorem le_or_self_right (x y : Nat) : y ≤ x ||| y :=
  Nat.le_of_testBit (fun i h => by simp [Nat.testBit_or, h])

/-- C8: the row sort key is the arbitration id, with extended-id frames
keyed at `id ||| 2^32`: every extended-id frame sorts after every
standard-id frame (whose id is below `2^32`), and standard-id frames sort in
ascending numeric id order. -/
theorem sort_key_ordering :
    (∀ m1 m2 : Msg, m1.is_extended_id = false → m2.is_extended_id = true →
      m1.arbitration_id < 2 ^ 32 → sortKey m1 < sortKey m2) ∧
    (∀ m1 m2 : Msg, m1.is_extended_id = false → m2.is_extended_id = false →
      m1.arbitration_id < m2.arbitration_id → sortKey m1 < sortKey m2) := by
  have hshift : (1 <<< 32 : Nat) = 2 ^ 32 := by norm_num [Nat.shiftLeft_eq]
  constructor
  · intro m1 m2 h1 h2 hlt
    simp only [sortKey, h1, h2, if_true, Bool.false_eq_true, if_false]
    calc m1.arbitration_id < 2 ^ 32 := hlt
      _ ≤ m2.arbitration_id ||| (1 <<< 32) := by
          rw [hshift]
          exact le_or_self_right _ _
  · intro m1 m2 h1 h2 hlt
    simpa only [sortKey, h1, h2, Bool.false_eq_true, if_false] using hlt

/-- Witness for C8 with ids `0x100`, `0x7E4` (standard) and `0x123456`
(extended): both standard ids sort before the extended id, ascending. -/
theorem sort_key_ordering_witness :
    sortKey ⟨0x100, false, 0, []⟩ < sortKey ⟨0x7E4, false, 0, []⟩ ∧
    sortKey ⟨0x7E4, false, 0, []⟩ < sortKey ⟨0x123456, true, 0, []⟩ ∧
    sortKey ⟨0x100, false, 0, []⟩ < sortKey ⟨0x123456, true, 0, []⟩ :=
  ⟨sort_key_ordering.2 ⟨0x100, false, 0, []⟩ ⟨0x7E4, false, 0, []⟩ rfl rfl (by decide),
   sort_key_ordering.1 ⟨0x7E4, false, 0, []⟩ ⟨0x123456, true, 0, []⟩ rfl rfl (by norm_num),
   sort_key_ordering.1 ⟨0x100, false, 0, []⟩ ⟨0x123456, true, 0, []⟩ rfl rfl (by norm_num)⟩

/-! ### Byte-level lemmas for the struct codec -/

/-- Helper: the little-endian digit list has exactly `w` bytes. -/
theorem natToBytesLE_length (w n : Nat) : (natToBytesLE w n).length = w := by
  induction w generalizing n with
  | zero => rfl
  | succ w ih => simp [natToBytesLE, ih]

/-- Helper: reading back `w` little-endian digits recovers `n % 2^(8w)`. -/
theorem natFromBytesLE_natToBytesLE (w n : Nat) :
    natFromBytesLE (natToBytesLE w n) = n % 2 ^ (8 * w) := by
  induction w generalizing n with
  | zero => simp [natToBytesLE, natFromBytesLE, Nat.mod_one]
  | succ w ih =>
    simp only [natToBytesLE, natFromBytesLE, ih]
    have h2 : (2 : Nat) ^ (8 * (w + 1)) = 256 * 2 ^ (8 * w) := by ring
    rw [h2, Nat.mod_mul]

/-- Helper: presenting in a byte order preserves length. -/
theorem withByteOrder_length (bo : ByteOrder) (l : List Nat) :
    (withByteOrder bo l).length = l.length := by
  cases bo <;> simp [withByteOrder]

/-- Helper: presenting twice in the same byte order is the identity. -/
theorem withByteOrder_involutive (bo : ByteOrder) (l : List Nat) :
    withByteOrder bo (withByteOrder bo l) = l := by
  cases bo <;> simp [withByteOrder]

/-- Helper: a field code with a representable range is an integer code of
positive width, and its range is the two's-complement range of its width. -/
theorem range?_spec (c : FieldCode) (r : Int × Int) (hr : c.range? = some r) :
    0 < c.size ∧
    ((c.isSigned = true ∧ r = (-(2 ^ (8 * c.size - 1)), 2 ^ (8 * c.size - 1) - 1)) ∨
      (c.isSigned = false ∧ r = (0, 2 ^ (8 * c.size) - 1))) := by
  cases c <;> simp_all [FieldCode.range?, FieldCode.size, FieldCode.isSigned]

/-- Helper: `struct.pack` of one in-range integer field succeeds and writes
the two's complement bytes. -/
theorem encodeField_int_ok (bo : ByteOrder) (c : FieldCode) (i : Int) (r : Int × Int)
    (hr : c.range? = some r) (h1 : r.1 ≤ i) (h2 : i ≤ r.2) :
    encodeField bo c (.int i) =
      .ok (withByteOrder bo (natToBytesLE c.size (i % 2 ^ (8 * c.size)).toNat)) := by
  simp [encodeField, hr, h1, h2]

/-- Helper: decoding the bytes written for an in-range integer recovers it. -/
theorem decodeField_encodeField (bo : ByteOrder) (c : FieldCode) (i : Int) (r : Int × Int)
    (hr : c.range? = some r) (h1 : r.1 ≤ i) (h2 : i ≤ r.2) :
    decodeField bo c (withByteOrder bo (natToBytesLE c.size (i % 2 ^ (8 * c.size)).toNat)) =
      .ok (.int i) := by
  obtain ⟨hw, hcase⟩ := range?_spec c r hr
  have hM : (0 : Int) < 2 ^ (8 * c.size) := by positivity
  have hMcast : ((2 ^ (8 * c.size) : Nat) : Int) = 2 ^ (8 * c.size) := by push_cast; rfl
  have hHcast : ((2 ^ (8 * c.size - 1) : Nat) : Int) = 2 ^ (8 * c.size - 1) := by
    push_cast; rfl
  have hsplit : (2 : Int) ^ (8 * c.size) = 2 * 2 ^ (8 * c.size - 1) := by
    have hx : 8 * c.size - 1 + 1 = 8 * c.size := by omega
    conv_lhs => rw [← hx]
    rw [pow_succ]
    ring
  have hmod0 := Int.emod_nonneg i (ne_of_gt hM)
  have hmodlt := Int.emod_lt_of_pos i hM
  have hn : natFromBytesLE
      (withByteOrder bo (withByteOrder bo (natToBytesLE c.size (i % 2 ^ (8 * c.size)).toNat)))
      = (i % 2 ^ (8 * c.size)).toNat := by
    rw [withByteOrder_involutive, natFromBytesLE_natToBytesLE]
    apply Nat.mod_eq_of_lt
    omega
  simp only [decodeField, hr, hn]
  rcases hcase with ⟨hsig, hreq⟩ | ⟨hsig, hreq⟩
  · subst hreq
    simp only at h1 h2
    rcases le_or_lt 0 i with hpos | hneg
    · have hemod : i % 2 ^ (8 * c.size) = i := Int.emod_eq_of_lt hpos (by omega)
      rw [hemod, if_neg, Int.toNat_of_nonneg hpos]
      rw [hsig]
      simp only [true_and, not_le]
      omega
    · have hemod : i % 2 ^ (8 * c.size) = i + 2 ^ (8 * c.size) := by
        have h' : (i + 2 ^ (8 * c.size) * 1) % 2 ^ (8 * c.size) = i % 2 ^ (8 * c.size) :=
          Int.add_mul_emod_self_left i (2 ^ (8 * c.size)) 1
        rw [mul_one] at h'
        rw [← h']
        exact Int.emod_eq_of_lt (by omega) (by omega)
      rw [hemod, if_pos]
      · have hnn : (0 : Int) ≤ i + 2 ^ (8 * c.size) := by omega
        have := Int.toNat_of_nonneg hnn
        congr 2
        omega
      · refine ⟨hsig, ?_⟩
        omega
  · subst hreq
    simp only at h1 h2
    have hemod : i % 2 ^ (8 * c.size) = i := Int.emod_eq_of_lt h1 (by omega)
    rw [hemod, if_neg, Int.toNat_of_nonneg h1]
    rw [hsig]
    simp

/-- Helper: packing a list of in-range integers succeeds, writes
`sum of widths` bytes, and unpacking them recovers the integers. -/
theorem structFields_roundtrip (bo : ByteOrder) (cs : List FieldCode) (vs : List Int)
    (h : intsInRange cs vs = true) :
    ∃ bytes, structPackFields bo cs (vs.map PyVal.int) = .ok bytes ∧
      bytes.length = (cs.map FieldCode.size).sum ∧
      structUnpackFields bo cs bytes = .ok (vs.map PyVal.int) := by
  induction cs generalizing vs with
  | nil =>
    cases vs with
    | nil => exact ⟨[], rfl, rfl, rfl⟩
    | cons v vs => simp [intsInRange] at h
  | cons c cs ih =>
    cases vs with
    | nil => simp [intsInRange] at h
    | cons v vs =>
      simp only [intsInRange, Bool.and_eq_true] at h
      obtain ⟨hc, hrest⟩ := h
      rcases hr : c.range? with _ | r
      · rw [hr] at hc; simp at hc
      · rw [hr] at hc
        simp only [Bool.and_eq_true, decide_eq_true_eq] at hc
        obtain ⟨h1, h2⟩ := hc
        obtain ⟨bs, hpack, hlen, hunpack⟩ := ih vs hrest
        have hblen : (withByteOrder bo (natToBytesLE c.size (v % 2 ^ (8 * c.size)).toNat)).length
            = c.size := by
          rw [withByteOrder_length, natToBytesLE_length]
        refine ⟨withByteOrder bo (natToBytesLE c.size (v % 2 ^ (8 * c.size)).toNat) ++ bs,
          ?_, ?_, ?_⟩
        · simp only [structPackFields, List.map_cons]
          rw [encodeField_int_ok bo c v r hr h1 h2, hpack]
          rfl
        · simp [List.length_append, hblen, hlen]
        · have htake : List.take c.size
              (withByteOrder bo (natToBytesLE c.size (v % 2 ^ (8 * c.size)).toNat) ++ bs) =
              withByteOrder bo (natToBytesLE c.size (v % 2 ^ (8 * c.size)).toNat) :=
            List.take_left' hblen
          have hdrop : List.drop c.size
              (withByteOrder bo (natToBytesLE c.size (v % 2 ^ (8 * c.size)).toNat) ++ bs) = bs :=
            List.drop_left' hblen
          simp only [structUnpackFields, List.map_cons]
          rw [htake, hdrop, if_pos hblen]
          rw [decodeField_encodeField bo c v r hr h1 h2, hunpack]
          rfl

/-- Helper: with integer arguments and integer scaling factors, the data list
built by `pack_data` is the pointwise product (the `f` exemption does not
matter for integer inputs, where `round` is the identity). -/
theorem buildPackData_int (cs : List FieldCode) (vs ss : List Int) :
    buildPackData cs (vs.map PyVal.int) (ss.map PyVal.int) =
      ((List.zipWith (fun v s => v * s) vs ss).map PyVal.int).take cs.length := by
  induction cs generalizing vs ss with
  | nil => simp [buildPackData]
  | cons c cs ih =>
    cases vs with
    | nil => simp [buildPackData]
    | cons v vs =>
      cases ss with
      | nil => simp [buildPackData]
      | cons s ss =>
        simp only [List.map_cons, buildPackData, List.zipWith_cons_cons, List.length_cons,
          List.take_succ_cons, ih]
        congr 1
        by_cases hc : c = FieldCode.f32 <;> simp [hc, pyMul, pyRound]

/-- Helper: unscaling the pointwise products by the same nonzero integer
factors recovers the original integers. -/
theorem scaleValues_int (vs ss : List Int) (hlen : vs.length = ss.length)
    (h0 : ∀ s ∈ ss, s ≠ 0) :
    scaleValues ((List.zipWith (fun v s => v * s) vs ss).map PyVal.int) (ss.map PyVal.int) =
      .ok (vs.map PyVal.int) := by
  induction vs generalizing ss with
  | nil =>
    cases ss with
    | nil => rfl
    | cons s ss => simp at hlen
  | cons v vs ih =>
    cases ss with
    | nil => simp at hlen
    | cons s ss =>
      have hs : s ≠ 0 := h0 s (by simp)
      simp only [List.zipWith_cons_cons, List.map_cons, scaleValues, scaleOne, pyFloorDiv,
        if_neg hs]
      rw [Int.mul_fdiv_cancel v hs]
      rw [ih ss (by simpa using hlen) (fun x hx => h0 x (by simp [hx]))]
      rfl

/-- Helper: unfolding `checkScaledRanges`. -/
theorem checkScaledRanges_spec (cs : List FieldCode) (vs ss : List Int)
    (h : checkScaledRanges cs vs ss = true) :
    vs.length = cs.length ∧ ss.length = cs.length ∧ (∀ s ∈ ss, s ≠ 0) ∧
      intsInRange cs (List.zipWith (fun v s => v * s) vs ss) = true := by
  induction cs generalizing vs ss with
  | nil =>
    cases vs with
    | nil =>
      cases ss with
      | nil => simp [intsInRange]
      | cons s ss => simp [checkScaledRanges] at h
    | cons v vs =>
      cases ss <;> simp [checkScaledRanges] at h
  | cons c cs ih =>
    cases vs with
    | nil => cases ss <;> simp [checkScaledRanges] at h
    | cons v vs =>
      cases ss with
      | nil => simp [checkScaledRanges] at h
      | cons s ss =>
        simp only [checkScaledRanges, Bool.and_eq_true, bne_iff_ne, ne_eq] at h
        obtain ⟨⟨hs, hc⟩, hrest⟩ := h
        obtain ⟨hl1, hl2, h0, hin⟩ := ih vs ss hrest
        refine ⟨by simp [hl1], by simp [hl2], ?_, ?_⟩
        · intro x hx
          rcases List.mem_cons.mp hx with rfl | hx'
          · exact hs
          · exact h0 x hx'
        · simp only [List.zipWith_cons_cons, intsInRange, Bool.and_eq_true]
          exact ⟨hc, hin⟩

/-- Helper: a nonempty all-integer field list packs to a nonempty byte list. -/
theorem sizes_sum_pos (c : FieldCode) (cs : List FieldCode) (r : Int × Int)
    (hr : c.range? = some r) :
    0 < ((c :: cs).map FieldCode.size).sum := by
  have := (range?_spec c r hr).1
  simp only [List.map_cons, List.sum_cons]
  omega

/-- C2 (amended): for an id registered with an all-integer layout — plain,
or scaled by nonzero integer factors — and integer values whose (scaled) raw
values lie within the fields' representable ranges, unpacking the bytes
produced by packing returns the original values exactly. -/
theorem pack_unpack_roundtrip :
    (∀ (tbl : List (TableKey × TableValue)) (cmd : Nat) (bo : ByteOrder)
        (cs : List FieldCode) (vs : List Int),
      findStructEntry cmd tbl = some (.plain ⟨bo, cs⟩) →
      intsInRange cs vs = true →
      (pack_data cmd tbl (vs.map PyVal.int)).bind (unpack_data cmd tbl) =
        .ok (vs.map PyVal.int)) ∧
    (∀ (tbl : List (TableKey × TableValue)) (cmd : Nat) (bo : ByteOrder)
        (cs : List FieldCode) (ss vs : List Int),
      findStructEntry cmd tbl = some (.scaled ⟨bo, cs⟩ (ss.map PyVal.int)) →
      checkScaledRanges cs vs ss = true →
      (pack_data cmd tbl (vs.map PyVal.int)).bind (unpack_data cmd tbl) =
        .ok (vs.map PyVal.int)) := by
  have hne : ∀ (tbl : List (TableKey × TableValue)) (cmd : Nat) (v : TableValue),
      findStructEntry cmd tbl = some v → tbl.isEmpty = false := by
    intro tbl cmd v hf
    cases tbl
    · simp [findStructEntry] at hf
    · rfl
  have hhead : ∀ (c : FieldCode) (cs : List FieldCode) (ws : List Int),
      intsInRange (c :: cs) ws = true → ∃ r, c.range? = some r := by
    intro c cs ws hin
    cases ws with
    | nil => simp [intsInRange] at hin
    | cons w ws =>
      simp only [intsInRange, Bool.and_eq_true] at hin
      rcases hr : c.range? with _ | r
      · rw [hr] at hin; simp at hin
      · exact ⟨r, rfl⟩
  constructor
  · intro tbl cmd bo cs vs hfind hin
    have htne := hne tbl cmd _ hfind
    cases cs with
    | nil =>
      cases vs with
      | nil => simp [pack_data, unpack_data, Except.bind]
      | cons v vs => simp [intsInRange] at hin
    | cons c cs' =>
      cases vs with
      | nil => simp [intsInRange] at hin
      | cons v vs' =>
        obtain ⟨bytes, hpack, hlen, hunpack⟩ := structFields_roundtrip bo (c :: cs') (v :: vs') hin
        obtain ⟨r, hr⟩ := hhead c cs' (v :: vs') hin
        have hpos := sizes_sum_pos c cs' r hr
        have hbne : bytes.length ≠ 0 := by omega
        have hcond : ¬(tbl.isEmpty = true ∨ ((v :: vs').map PyVal.int).length = 0) := by
          simp [htne]
        have hcond2 : ¬(tbl.isEmpty = true ∨ bytes.length = 0) := by
          simp [htne, hbne]
        have hp : pack_data cmd tbl ((v :: vs').map PyVal.int) = .ok bytes := by
          simp only [pack_data, hfind]
          rw [if_neg hcond]
          exact hpack
        rw [hp]
        show unpack_data cmd tbl bytes = _
        simp only [unpack_data, hfind]
        rw [if_neg hcond2]
        exact hunpack
  · intro tbl cmd bo cs ss vs hfind hchk
    have htne := hne tbl cmd _ hfind
    obtain ⟨hl1, hl2, h0, hin⟩ := checkScaledRanges_spec cs vs ss hchk
    cases cs with
    | nil =>
      have hv : vs = [] := List.length_eq_zero.mp (by simpa using hl1)
      have hs : ss = [] := List.length_eq_zero.mp (by simpa using hl2)
      subst hv; subst hs
      simp [pack_data, unpack_data, Except.bind]
    | cons c cs' =>
      cases vs with
      | nil => simp at hl1
      | cons v vs' =>
        cases ss with
        | nil => simp at hl2
        | cons s ss' =>
          have hzlen : ((List.zipWith (fun v s => v * s) (v :: vs') (s :: ss')).map
              PyVal.int).length = (c :: cs').length := by
            simp only [List.length_map, List.length_zipWith]
            omega
          have hbuild : buildPackData (c :: cs') ((v :: vs').map PyVal.int)
              ((s :: ss').map PyVal.int) =
              (List.zipWith (fun v s => v * s) (v :: vs') (s :: ss')).map PyVal.int := by
            rw [buildPackData_int, ← hzlen, List.take_length]
          obtain ⟨bytes, hpack, hlen, hunpack⟩ :=
            structFields_roundtrip bo (c :: cs') (List.zipWith (fun v s => v * s) (v :: vs') (s :: ss')) hin
          obtain ⟨r, hr⟩ := hhead c cs' _ hin
          have hpos := sizes_sum_pos c cs' r hr
          have hbne : bytes.length ≠ 0 := by omega
          have hcond : ¬(tbl.isEmpty = true ∨ ((v :: vs').map PyVal.int).length = 0) := by
            simp [htne]
          have hcond2 : ¬(tbl.isEmpty = true ∨ bytes.length = 0) := by
            simp [htne, hbne]
          have hp : pack_data cmd tbl ((v :: vs').map PyVal.int) = .ok bytes := by
            simp only [pack_data, hfind]
            rw [if_neg hcond]
            show structPackFields bo (c :: cs') (buildPackData (c :: cs')
              ((v :: vs').map PyVal.int) ((s :: ss').map PyVal.int)) = .ok bytes
            rw [hbuild]
            exact hpack
          rw [hp]
          show unpack_data cmd tbl bytes = _
          simp only [unpack_data, hfind]
          rw [if_neg hcond2]
          show (structUnpackFields bo (c :: cs') bytes).bind
            (fun raw => scaleValues raw ((s :: ss').map PyVal.int)) = _
          rw [hunpack]
          show scaleValues ((List.zipWith (fun v s => v * s) (v :: vs') (s :: ss')).map
            PyVal.int) ((s :: ss').map PyVal.int) = _
          exact scaleValues_int (v :: vs') (s :: ss') (by omega) h0

/-- Witness for C2 at a scaled little-endian `int8`/`uint16` layout. -/
theorem pack_unpack_roundtrip_witness :
    (pack_data 0x181
        [(TableKey.one 0x181, TableValue.scaled ⟨ByteOrder.little, [FieldCode.i8, FieldCode.u16]⟩
          (([1, 10] : List Int).map PyVal.int))]
        (([-7, 200] : List Int).map PyVal.int)).bind
      (unpack_data 0x181
        [(TableKey.one 0x181, TableValue.scaled ⟨ByteOrder.little, [FieldCode.i8, FieldCode.u16]⟩
          (([1, 10] : List Int).map PyVal.int))]) =
      .ok (([-7, 200] : List Int).map PyVal.int) :=
  pack_unpack_roundtrip.2
    [(TableKey.one 0x181, TableValue.scaled ⟨ByteOrder.little, [FieldCode.i8, FieldCode.u16]⟩
      (([1, 10] : List Int).map PyVal.int))]
    0x181 ByteOrder.little [FieldCode.i8, FieldCode.u16] [1, 10] [-7, 200]
    (by decide) (by decide)

/-- Counterexample to C2 as stated: value 200 is within `uint8`'s
representable range, yet with integer scale 10 packing raises `struct.error`
(the scaled raw value 2000 overflows the field), so the round trip cannot
return the values. -/
theorem pack_unpack_roundtrip_counterexample :
    (0 : Int) ≤ 200 ∧ (200 : Int) ≤ 255 ∧ FieldCode.u8.range? = some (0, 255) ∧
    pack_data 0x100
      [(TableKey.one 0x100, TableValue.scaled ⟨ByteOrder.little, [FieldCode.u8]⟩ [PyVal.int 10])]
      [PyVal.int 200] = .error "struct.error: argument out of range" := by
  decide

/-- Helper: a successful entry lookup means the table is non-empty. -/
theorem findStructEntry_isEmpty_false (cmd : Nat) (tbl : List (TableKey × TableValue))
    (v : TableValue) (hf : findStructEntry cmd tbl = some v) : tbl.isEmpty = false := by
  cases tbl
  · simp [findStructEntry] at hf
  · rfl

/-- C5 (amended): on an id matching no key of a non-empty table, `pack_data`
with a non-empty argument list and `unpack_data` with non-empty data raise
the typed `ValueError` `Unknown command`; with no arguments or empty data
they return an empty result without consulting the table at all. -/
theorem unknown_command_error :
    (∀ (cmd : Nat) (tbl : List (TableKey × TableValue)) (args : List PyVal),
      tbl ≠ [] → args ≠ [] → findStructEntry cmd tbl = none →
      pack_data cmd tbl args = .error (unknownCommandMsg cmd)) ∧
    (∀ (cmd : Nat) (tbl : List (TableKey × TableValue)) (data : List Nat),
      tbl ≠ [] → data ≠ [] → findStructEntry cmd tbl = none →
      unpack_data cmd tbl data = .error (unknownCommandMsg cmd)) ∧
    (∀ (cmd : Nat) (tbl : List (TableKey × TableValue)),
      pack_data cmd tbl [] = .ok [] ∧ unpack_data cmd tbl [] = .ok []) := by
  refine ⟨?_, ?_, ?_⟩
  · intro cmd tbl args ht ha hf
    have hcond : ¬(tbl.isEmpty = true ∨ args.length = 0) := by
      simp [List.isEmpty_iff, ht, List.length_eq_zero, ha]
    simp only [pack_data, hf]
    rw [if_neg hcond]
  · intro cmd tbl data ht hd hf
    have hcond : ¬(tbl.isEmpty = true ∨ data.length = 0) := by
      simp [List.isEmpty_iff, ht, List.length_eq_zero, hd]
    simp only [unpack_data, hf]
    rw [if_neg hcond]
  · intro cmd tbl
    constructor <;> simp [pack_data, unpack_data]

/-- Witness for C5 on a one-entry table and unmatched ids. -/
theorem unknown_command_error_witness :
    pack_data 0x101
      [(TableKey.one 0x100, TableValue.plain ⟨ByteOrder.little, [FieldCode.u8]⟩)]
      [PyVal.int 1] = .error (unknownCommandMsg 0x101) ∧
    unpack_data 0x102
      [(TableKey.one 0x100, TableValue.plain ⟨ByteOrder.little, [FieldCode.u8]⟩)]
      [1, 2] = .error (unknownCommandMsg 0x102) :=
  ⟨unknown_command_error.1 0x101
      [(TableKey.one 0x100, TableValue.plain ⟨ByteOrder.little, [FieldCode.u8]⟩)]
      [PyVal.int 1] (by decide) (by decide) (by decide),
   unknown_command_error.2.1 0x102
      [(TableKey.one 0x100, TableValue.plain ⟨ByteOrder.little, [FieldCode.u8]⟩)]
      [1, 2] (by decide) (by decide) (by decide)⟩

/-- Counterexample to C5 as stated: on an unmatched id with an *empty* byte
or argument sequence, `unpack_data` and `pack_data` return an empty result
instead of the `UnknownCommand` error. -/
theorem unknown_command_error_counterexample :
    findStructEntry 0x200
      [(TableKey.one 0x100, TableValue.plain ⟨ByteOrder.little, [FieldCode.u8]⟩)] = none ∧
    unpack_data 0x200
      [(TableKey.one 0x100, TableValue.plain ⟨ByteOrder.little, [FieldCode.u8]⟩)] [] = .ok [] ∧
    pack_data 0x200
      [(TableKey.one 0x100, TableValue.plain ⟨ByteOrder.little, [FieldCode.u8]⟩)] [] = .ok [] := by
  decide

/-- C6 (amended): during unpack of a tuple entry every raw decoded value is
divided by its scaling factor — *floor* division (Python `//`, `Int.fdiv`)
when the factor is an integer, which for a positive factor is the floor of
the exact quotient (not truncation toward zero), and float division when the
factor is a float — while plain entries pass their values through unscaled. -/
theorem unpack_scaling_division :
    (∀ (tbl : List (TableKey × TableValue)) (cmd : Nat) (struct_t : StructFmt)
        (scaling : List PyVal) (data : List Nat) (raw : List PyVal),
      findStructEntry cmd tbl = some (.scaled struct_t scaling) → data ≠ [] →
      structUnpack struct_t data = .ok raw →
      unpack_data cmd tbl data = scaleValues raw scaling) ∧
    (∀ d s : Int, s ≠ 0 → scaleOne (.int d) (.int s) = .ok (.int (Int.fdiv d s))) ∧
    (∀ d s : Int, 0 < s → Int.fdiv d s = ⌊(d : ℚ) / (s : ℚ)⌋) ∧
    (∀ (d : Int) (q : ℚ), q ≠ 0 → scaleOne (.int d) (.float q) = .ok (.float ((d : ℚ) / q))) ∧
    (∀ (tbl : List (TableKey × TableValue)) (cmd : Nat) (struct_t : StructFmt)
        (data : List Nat),
      findStructEntry cmd tbl = some (.plain struct_t) → data ≠ [] →
      unpack_data cmd tbl data = structUnpack struct_t data) := by
  refine ⟨?_, ?_, ?_, ?_, ?_⟩
  · intro tbl cmd struct_t scaling data raw hfind hd hunp
    have htne := findStructEntry_isEmpty_false cmd tbl _ hfind
    have hcond : ¬(tbl.isEmpty = true ∨ data.length = 0) := by
      simp [htne, List.length_eq_zero, hd]
    simp only [unpack_data, hfind]
    rw [if_neg hcond]
    show (structUnpack struct_t data).bind (fun raw => scaleValues raw scaling) = _
    rw [hunp]
    rfl
  · intro d s hs
    simp [scaleOne, pyFloorDiv, hs]
  · intro d s hs
    rw [Int.fdiv_eq_ediv d hs.le]
    have h3 : ((s.toNat : ℕ) : ℚ) = (s : ℚ) := by
      exact_mod_cast congrArg (fun z : Int => (z : ℚ)) (Int.toNat_of_nonneg hs.le)
    rw [← h3, Rat.floor_intCast_div_natCast d s.toNat, Int.toNat_of_nonneg hs.le]
  · intro d q hq
    simp [scaleOne, pyToFloat, hq]
  · intro tbl cmd struct_t data hfind hd
    have htne := findStructEntry_isEmpty_false cmd tbl _ hfind
    have hcond : ¬(tbl.isEmpty = true ∨ data.length = 0) := by
      simp [htne, List.length_eq_zero, hd]
    simp only [unpack_data, hfind]
    rw [if_neg hcond]

/-- Witness for C6 on the layout `('<b', 2)` and raw byte `0xF9` (= -7). -/
theorem unpack_scaling_division_witness :
    unpack_data 0x42
      [(TableKey.one 0x42, TableValue.scaled ⟨ByteOrder.little, [FieldCode.i8]⟩ [PyVal.int 2])]
      [0xF9] = scaleValues [PyVal.int (-7)] [PyVal.int 2] ∧
    scaleOne (PyVal.int (-7)) (PyVal.int 2) = .ok (.int (Int.fdiv (-7) 2)) ∧
    Int.fdiv (-7) 2 = ⌊((-7 : Int) : ℚ) / ((2 : Int) : ℚ)⌋ :=
  ⟨unpack_scaling_division.1
      [(TableKey.one 0x42, TableValue.scaled ⟨ByteOrder.little, [FieldCode.i8]⟩ [PyVal.int 2])]
      0x42 ⟨ByteOrder.little, [FieldCode.i8]⟩ [PyVal.int 2] [0xF9] [PyVal.int (-7)]
      (by decide) (by decide) (by decide),
   unpack_scaling_division.2.1 (-7) 2 (by decide),
   unpack_scaling_division.2.2.1 (-7) 2 (by decide)⟩

/-- Counterexample to C6 as stated: division by an integer factor is floor
division, not truncating division — unpacking raw value -7 with integer
scale 2 yields -4, while truncation toward zero (`Int.tdiv`) gives -3. -/
theorem unpack_scaling_division_counterexample :
    unpack_data 0x42
      [(TableKey.one 0x42, TableValue.scaled ⟨ByteOrder.little, [FieldCode.i8]⟩ [PyVal.int 2])]
      [0xF9] = .ok [PyVal.int (-4)] ∧
    Int.tdiv (-7) 2 = -3 ∧ PyVal.int (-4) ≠ PyVal.int (-3) := by
  decide

/-- C7 (amended): during pack of a tuple entry every argument is multiplied
by its scaling factor and the product is rounded (half to even, hence to a
nearest integer) for every field whose format character is not `f`, while
`f` (32-bit float) fields keep the unrounded product; entries registered
without scaling pass the arguments to the encoder unchanged, with no
multiplication and no rounding. -/
theorem pack_rounding :
    (∀ (tbl : List (TableKey × TableValue)) (cmd : Nat) (struct_t : StructFmt)
        (scaling args : List PyVal),
      findStructEntry cmd tbl = some (.scaled struct_t scaling) → args ≠ [] →
      pack_data cmd tbl args =
        structPack struct_t (buildPackData struct_t.fields args scaling)) ∧
    (∀ (c : FieldCode) (cs : List FieldCode) (a v : PyVal) (args vals : List PyVal),
      buildPackData (c :: cs) (a :: args) (v :: vals) =
        (if c = .f32 then pyMul a v else pyRound (pyMul a v)) :: buildPackData cs args vals) ∧
    (∀ a v : PyVal, ∃ i : Int, pyRound (pyMul a v) = .int i) ∧
    (∀ q : ℚ, |q - (roundHalfEven q : ℚ)| ≤ 1 / 2) ∧
    (∀ (tbl : List (TableKey × TableValue)) (cmd : Nat) (struct_t : StructFmt)
        (args : List PyVal),
      findStructEntry cmd tbl = some (.plain struct_t) → args ≠ [] →
      pack_data cmd tbl args = structPack struct_t args) := by
  refine ⟨?_, ?_, ?_, ?_, ?_⟩
  · intro tbl cmd struct_t scaling args hfind ha
    have htne := findStructEntry_isEmpty_false cmd tbl _ hfind
    have hcond : ¬(tbl.isEmpty = true ∨ args.length = 0) := by
      simp [htne, List.length_eq_zero, ha]
    simp only [pack_data, hfind]
    rw [if_neg hcond]
  · intro c cs a v args vals
    rfl
  · intro a v
    rcases h : pyMul a v with i | q
    · exact ⟨i, by simp [pyRound]⟩
    · exact ⟨roundHalfEven q, by simp [pyRound]⟩
  · intro q
    have h1 : (⌊q⌋ : ℚ) ≤ q := Int.floor_le q
    have h2 : q < ⌊q⌋ + 1 := Int.lt_floor_add_one q
    simp only [roundHalfEven]
    split_ifs with ha hb hc <;>
      · rw [abs_le]
        constructor <;> push_cast <;> linarith
  · intro tbl cmd struct_t args hfind ha
    have htne := findStructEntry_isEmpty_false cmd tbl _ hfind
    have hcond : ¬(tbl.isEmpty = true ∨ args.length = 0) := by
      simp [htne, List.length_eq_zero, ha]
    simp only [pack_data, hfind]
    rw [if_neg hcond]

/-- Witness for C7 on a scaled `uint8` layout and at the tie `q = 1/2`. -/
theorem pack_rounding_witness :
    pack_data 0x10
      [(TableKey.one 0x10, TableValue.scaled ⟨ByteOrder.little, [FieldCode.u8]⟩ [PyVal.int 2])]
      [PyVal.int 3] =
      structPack ⟨ByteOrder.little, [FieldCode.u8]⟩
        (buildPackData [FieldCode.u8] [PyVal.int 3] [PyVal.int 2]) ∧
    |(1 / 2 : ℚ) - ((roundHalfEven (1 / 2) : Int) : ℚ)| ≤ 1 / 2 :=
  ⟨pack_rounding.1
      [(TableKey.one 0x10, TableValue.scaled ⟨ByteOrder.little, [FieldCode.u8]⟩ [PyVal.int 2])]
      0x10 ⟨ByteOrder.little, [FieldCode.u8]⟩ [PyVal.int 2] [PyVal.int 3]
      (by decide) (by decide),
   pack_rounding.2.2.2.1 (1 / 2)⟩

/-- Helper: Python `round(1.5)` is 2 (half to even). -/
theorem roundHalfEven_three_halves : roundHalfEven (3 / 2) = 2 := by
  have hf : ⌊(3 / 2 : ℚ)⌋ = 1 := by
    rw [Int.floor_eq_iff] <;> norm_num
  simp only [roundHalfEven, hf]
  norm_num

/-- Counterexample to C7 as stated: for a layout registered *without* scaling
factors, a non-integer argument to a non-float field is not rounded — the
encoder raises `struct.error` instead of rounding 3/2 to 2. -/
theorem pack_rounding_counterexample :
    pack_data 0x10
      [(TableKey.one 0x10, TableValue.plain ⟨ByteOrder.little, [FieldCode.u8]⟩)]
      [PyVal.float (3 / 2)] = .error "struct.error: required argument is not an integer" ∧
    pyRound (PyVal.float (3 / 2)) = PyVal.int 2 := by
  constructor
  · decide
  · show PyVal.int (roundHalfEven (3 / 2)) = PyVal.int 2
    rw [roundHalfEven_three_halves]

end PyCanViewer
